import Mathlib

/-!
Verification of the Bambu-Lab-RFID-Library maintenance scripts.

This file gives a shallow embedding of the two Python scripts of the
repository, `scripts/gen_missing_key.py` and `scripts/gen_excel.py`,
and proves properties of the directory-classification and key-material
synthesis algorithms they implement.

Conventions of the embedding:
* Python byte values are `Nat` (each in `0..255`), byte strings are `List Nat`.
* Python strings are `String`; Python `s.endswith(t)` is `pyEndswith`.
* A parsed JSON document (the result of `json.load`) is a `JValue`;
  a Python `dict` built from JSON is a list of key/value pairs where a
  duplicated key keeps the last binding, as CPython's JSON decoder does.
* Fallible Python code (statements guarded by `try`/`except`) is modelled
  in the `Except String` monad; the carried string stands for the Python
  exception message.
* The filesystem tree walked by `os.walk` is a rose tree `FSTree`; file
  reads and writes are made explicit (documents are inputs, the written
  key file is part of the returned value).
-/

namespace BambuRFID

/-- Python `s.endswith(suffix)`, modelled on the character lists of the
two strings. -/
def pyEndswith (s suffix : String) : Bool :=
  suffix.data.isSuffixOf s.data

/-- The characters of the Python literal `'0123456789ABCDEFabcdef'` used by
the directory classifier (`gen_missing_key.py` line 34, `gen_excel.py`
line 133). -/
def hexChars : List Char :=
  ['0', '1', '2', '3', '4', '5', '6', '7', '8', '9',
   'A', 'B', 'C', 'D', 'E', 'F', 'a', 'b', 'c', 'd', 'e', 'f']

/-- The classification predicate applied to a directory name:
`len(current_dir) == 8 and all(c in '0123456789ABCDEFabcdef' for c in current_dir)`
(`gen_missing_key.py` line 34, `gen_excel.py` line 133). -/
def isTagDirName (name : String) : Bool :=
  name.length == 8 && name.data.all (fun c => hexChars.contains c)

/-- Value of a single hexadecimal digit, as accepted by Python's
`bytes.fromhex`. -/
def hexDigitVal (c : Char) : Option Nat :=
  if '0' ≤ c ∧ c ≤ '9' then some (c.toNat - 48)
  else if 'A' ≤ c ∧ c ≤ 'F' then some (c.toNat - 55)
  else if 'a' ≤ c ∧ c ≤ 'f' then some (c.toNat - 97 + 10)
  else none

/-- The ASCII whitespace characters CPython's `bytes.fromhex` skips
between byte pairs (`Py_ISSPACE`): space, tab, line feed, carriage return,
vertical tab and form feed.  (CPython 3.11+ skips this whole set; 3.10 and
earlier skip only the space.  Modelling the wider set only shrinks the set
of rejected strings, so every rejection proved below is a rejection on
every Python 3 version, and the explicit acceptance example below uses
only the space, accepted by every version.) -/
def pyIsSpace (c : Char) : Bool :=
  c == ' ' || c == '\t' || c == '\n' || c == '\r' || c == '\x0b' || c == '\x0c'

/-- Decoding of a list of characters as hexadecimal byte pairs, the core of
Python's `bytes.fromhex`: ASCII whitespace is skipped between byte pairs,
then each byte is two immediately adjacent hex digits; decoding fails on a
non-hexadecimal non-whitespace character, on whitespace splitting a pair,
or on a trailing odd digit. -/
def fromhexChars : List Char → Option (List Nat)
  | [] => some []
  | c₁ :: rest =>
      if pyIsSpace c₁ then fromhexChars rest
      else
        match rest with
        | [] => none
        | c₂ :: rest₂ => do
            let hi ← hexDigitVal c₁
            let lo ← hexDigitVal c₂
            let bs ← fromhexChars rest₂
            pure ((16 * hi + lo) :: bs)

/-- Python `bytes.fromhex(s)`. -/
def fromhex (s : String) : Option (List Nat) :=
  fromhexChars s.data

/-- A parsed JSON value, the result of Python's `json.load`. -/
inductive JValue where
  | null
  | bool (b : Bool)
  | num (n : Int)
  | str (s : String)
  | arr (elems : List JValue)
  | obj (fields : List (String × JValue))

/-- Lookup in a Python `dict` built by the JSON decoder from the field list
of a JSON object: a duplicated key keeps the last binding. -/
def jlookup (fields : List (String × JValue)) (k : String) : Option JValue :=
  List.lookup k fields.reverse

/-- Python subscription `v[k]` with a string key: a `KeyError` on a missing
key of a dict, a `TypeError` on a non-dict value. -/
def getItem (v : JValue) (k : String) : Except String JValue :=
  match v with
  | .obj fields =>
      match jlookup fields k with
      | some x => .ok x
      | none => .error ("KeyError: " ++ k)
  | _ => .error ("TypeError: value is not subscriptable with key " ++ k)

/-- Python `v.get(k, dflt)`: the dict method with a default; an
`AttributeError` when `v` is not a dict. -/
def dictGet (v : JValue) (k : String) (dflt : JValue) : Except String JValue :=
  match v with
  | .obj fields => .ok ((jlookup fields k).getD dflt)
  | _ => .error ("AttributeError: value has no attribute get for key " ++ k)

/-- Python `bytes.fromhex(v)` applied to a JSON value: a `TypeError` unless
the value is a string, a `ValueError` when the string does not decode. -/
def decodeKey (v : JValue) : Except String (List Nat) :=
  match v with
  | .str s =>
      match fromhex s with
      | some bs => .ok bs
      | none => .error "ValueError: non-hexadecimal number found in fromhex() arg"
  | _ => .error "TypeError: fromhex() argument must be str"

/-- Python `str(v)` as used by the f-string `f'hf-mf-ITS-UID-key.bin'` on the
value read from `Card.UID`.  Only the string case is exercised by real
key-dump documents; the remaining cases model Python's rendering closely
enough for the claims (no claim evaluates them). -/
def pyStr : JValue → String
  | .str s => s
  | .num n => toString n
  | .bool true => "True"
  | .bool false => "False"
  | .null => "None"
  | .arr _ => "[...]"
  | .obj _ => "\x7b...\x7d"

/-- Body of one iteration of the key-collection loops of
`generate_key_file` (`gen_missing_key.py` lines 66-75): look the sector up
in `SectorKeys` with default `{}`, look the named key up with default
`'FFFFFFFFFFFF'`, and decode the hex string to bytes. -/
def keyStep (sectorKeys : JValue) (keyName : String) (sector : Nat) :
    Except String (List Nat) := do
  let entry ← dictGet sectorKeys (toString sector) (.obj [])
  let keyHex ← dictGet entry keyName (.str "FFFFFFFFFFFF")
  decodeKey keyHex

/-- One key-collection loop of `generate_key_file`: `for sector in range(16)`
appending the decoded bytes of the named key to the accumulating buffer
(`gen_missing_key.py` lines 66-75). -/
def collectKeys (sectorKeys : JValue) (keyName : String) :
    Except String (List Nat) :=
  (List.range 16).foldlM
    (fun acc sector => do
      let bs ← keyStep sectorKeys keyName sector
      pure (acc ++ bs))
    []

/-- The function `generate_key_file` of `gen_missing_key.py` (lines 47-87),
taking the parsed key-dump document.  The whole Python body runs under a
`try`/`except` returning `(True, len(key_bytes), path)` on success and
`(False, str(e), None)` on any exception; here success carries the written
bytes together with the derived output filename
`f'hf-mf-UID-key.bin'`, and failure carries the exception message.
Reading and JSON-parsing the document file is abstracted into the `doc`
argument; an unreadable or unparsable file corresponds to a failing
document access and is not distinguished by any claim. -/
def generate_key_file (doc : JValue) : Except String (List Nat × String) := do
  let card ← getItem doc "Card"
  let uid ← getItem card "UID"
  let sectorKeys ← getItem doc "SectorKeys"
  let keysA ← collectKeys sectorKeys "KeyA"
  let keysB ← collectKeys sectorKeys "KeyB"
  pure (keysA ++ keysB, "hf-mf-" ++ pyStr uid ++ "-key.bin")

/-- The files written by one call of `generate_key_file`, as
(filename, contents) pairs: the single `open(output_path, 'wb')` write of
lines 81-82 happens on the success path only, after both key-collection
loops have finished; every failure path leaves the directory untouched. -/
def generate_key_file_writes (doc : JValue) : List (String × List Nat) :=
  match generate_key_file doc with
  | .ok (bs, name) => [(name, bs)]
  | .error _ => []

/-- The running statistics of the batch loop of `main`
(`gen_missing_key.py` lines 104-121). -/
structure BatchResult where
  success_count : Nat
  failed_count : Nat
  failed_dirs : List String
deriving DecidableEq, Repr

/-- One iteration of the batch loop of `main` (lines 110-121): call
`generate_key_file` and record the outcome. -/
def processDir (acc : BatchResult) (item : String × JValue) : BatchResult :=
  match generate_key_file item.2 with
  | .ok _ => { acc with success_count := acc.success_count + 1 }
  | .error _ =>
      { acc with
        failed_count := acc.failed_count + 1
        failed_dirs := acc.failed_dirs ++ [item.1] }

/-- The batch loop of `main` over the selected (directory, document) pairs
(`gen_missing_key.py` lines 104-121). -/
def runBatch (items : List (String × JValue)) : BatchResult :=
  items.foldl processDir ⟨0, 0, []⟩

/-- A directory tree as walked by `os.walk`: a name, the plain files
directly inside, and the subdirectories. -/
inductive FSTree where
  | node (name : String) (files : List String) (subdirs : List FSTree)

/-- Name component of a tree node. -/
def FSTree.name : FSTree → String
  | .node n _ _ => n

/-- Plain files directly inside a tree node. -/
def FSTree.files : FSTree → List String
  | .node _ fs _ => fs

/-- Subdirectories of a tree node. -/
def FSTree.subdirs : FSTree → List FSTree
  | .node _ _ ts => ts

/-- The per-directory artifact test of `find_missing_key_files`
(`gen_missing_key.py` lines 36-43): the `dump.json`-suffixed files and the
`key.bin`-suffixed files of the directory are collected; when there is a
json file and no key file, the first json file is selected. -/
def selectJson (files : List String) : Option String :=
  let json_files := files.filter (fun f => pyEndswith f "dump.json")
  let key_files := files.filter (fun f => pyEndswith f "key.bin")
  match json_files, key_files with
  | j :: _, [] => some j
  | _, _ => none

/-- The walk of `find_missing_key_files` below the root
(`gen_missing_key.py` lines 20-43), one visited directory at a time.
`path` is the list of path components of the parent (as `Path(root).parts`
would give them); a visited directory whose parts contain `'scripts'` is
skipped but still descended into (the `continue` of line 30 only skips the
classification), every other directory is classified and, when it is a tag
directory, its artifact test may select a `(parts, json-file)` entry. -/
def visit (path : List String) : FSTree → List (List String × String)
  | .node name files subdirs =>
    let path' := path ++ [name]
    let here :=
      if "scripts" ∈ path' then []
      else if isTagDirName name then
        match selectJson files with
        | some j => [(path', j)]
        | none => []
      else []
    here ++ (subdirs.attach.map (fun c => visit path' c.1)).flatten
termination_by t => sizeOf t
decreasing_by
  have := List.sizeOf_lt_of_mem c.2
  simp only [FSTree.node.sizeOf_spec]
  omega

/-- The function `find_missing_key_files` of `gen_missing_key.py`
(lines 14-45): the root itself is never classified, the `scripts` entry is
removed from the root's subdirectory list before the walk descends (lines
22-26), and every remaining subtree is walked. -/
def find_missing_key_files (root : FSTree) : List (List String × String) :=
  ((root.subdirs.eraseP (fun t => t.name == "scripts")).attach.map
    (fun c => visit [root.name] c.1)).flatten

/-- The walk of `find_rfid_files` below the root (`gen_excel.py` lines
119-138): identical classification to `visit`, but every `dump.bin`-suffixed
file of a tag directory contributes one `(parts, file)` entry. -/
def visitRfid (path : List String) : FSTree → List (List String × String)
  | .node name files subdirs =>
    let path' := path ++ [name]
    let here :=
      if "scripts" ∈ path' then []
      else if isTagDirName name then
        (files.filter (fun f => pyEndswith f "dump.bin")).map (fun f => (path', f))
      else []
    here ++ (subdirs.attach.map (fun c => visitRfid path' c.1)).flatten
termination_by t => sizeOf t
decreasing_by
  have := List.sizeOf_lt_of_mem c.2
  simp only [FSTree.node.sizeOf_spec]
  omega

/-- The function `find_rfid_files` of `gen_excel.py` (lines 113-140): same
root handling and `scripts` pruning as `find_missing_key_files`; each found
`dump.bin` file is recorded with the parts of its directory. -/
def find_rfid_files (root : FSTree) : List (List String × String) :=
  ((root.subdirs.eraseP (fun t => t.name == "scripts")).attach.map
    (fun c => visitRfid [root.name] c.1)).flatten

/-- The English-to-Chinese color table of `translate_color`
(`gen_excel.py` lines 31-88). -/
def color_map : List (String × String) :=
  [("Black", "黑色"), ("White", "白色"), ("Red", "红色"), ("Blue", "蓝色"),
   ("Green", "绿色"), ("Yellow", "黄色"), ("Orange", "橙色"), ("Purple", "紫色"),
   ("Pink", "粉色"), ("Gray", "灰色"), ("Grey", "灰色"), ("Silver", "银色"),
   ("Gold", "金色"), ("Bronze", "青铜色"), ("Cyan", "青色"), ("Magenta", "洋红色"),
   ("Beige", "米色"), ("Brown", "棕色"), ("Transparent", "透明"), ("Clear", "透明"),
   ("Translucent", "半透明"), ("Hot Pink", "热粉色"), ("Dark Gray", "深灰色"),
   ("Dark Grey", "深灰色"), ("Light Gray", "浅灰色"), ("Light Grey", "浅灰色"),
   ("Blue Gray", "蓝灰色"), ("Blue Grey", "蓝灰色"), ("Bambu Green", "拓竹绿"),
   ("Apple Green", "苹果绿"), ("Grass Green", "草绿色"), ("Forest Green", "森林绿"),
   ("Lime Green", "柠檬绿"), ("Lake Blue", "湖蓝色"), ("Ice Blue", "冰蓝色"),
   ("Sky Blue", "天蓝色"), ("Marine Blue", "海蓝色"), ("Royal Purple", "皇室紫"),
   ("Lilac Purple", "丁香紫"), ("Scarlet Red", "猩红色"), ("Lemon Yellow", "柠檬黄"),
   ("Ivory White", "象牙白"), ("Jade White", "玉白色"), ("Cream", "奶油色"),
   ("Desert Tan", "沙漠棕"), ("Peanut Brown", "花生棕"), ("Dark Brown", "深棕色"),
   ("Terracotta", "赤陶色"), ("Charcoal", "炭黑色"), ("Ash Gray", "灰白色"),
   ("Nardo Gray", "纳多灰"), ("Nebulae", "星云色"),
   ("Blue Hawaii (Blue-Green)", "夏威夷蓝（蓝绿色）"),
   ("Gilded Rose (Pink-Gold)", "镀金玫瑰（粉金色）"),
   ("Midnight Blaze (Blue-Red)", "午夜烈焰（蓝红色）"),
   ("Neon City (Blue-Magenta)", "霓虹城市（蓝洋红色）")]

/-- The function `translate_color` of `gen_excel.py` (lines 29-90):
`color_map.get(english_color, english_color)`. -/
def translate_color (english_color : String) : String :=
  (List.lookup english_color color_map).getD english_color

/-- The function `extract_path_info` of `gen_excel.py` (lines 92-111),
taking the parts of the file path (as `Path(file_path).parts`).  Returns
(material_category, material_type, color, uid, color_display). -/
def extract_path_info (path_parts : List String) :
    String × String × String × String × String :=
  let relevant_parts := path_parts.filter (fun p => !(p == "." || p == ".."))
  if h : 3 ≤ relevant_parts.length then
    let material_category := relevant_parts.get ⟨0, by omega⟩
    let material_type := relevant_parts.get ⟨1, by omega⟩
    let color := relevant_parts.get ⟨2, by omega⟩
    let uid := if h4 : 3 < relevant_parts.length
      then relevant_parts.get ⟨3, h4⟩ else "未知"
    let color_chinese := translate_color color
    let color_display := if color_chinese ≠ color
      then color_chinese ++ "/" ++ color else color
    (material_category, material_type, color, uid, color_display)
  else ("未知", "未知", "未知", "未知", "未知")

/-- Modelled from the spec: the external tag parser (`parse.py`, which is
not among the repository's source files) is a black box returning named
field values — at minimum `uid`, `filament_color` and a nested temperature
structure with optional `min_hotend`/`max_hotend` numeric values (spec
§4.4).  `none` in a field models the corresponding `tag.data` lookup
missing (the code reads each with `.get(..., default)` / `hasattr`). -/
structure ParsedTag where
  uid : Option String
  filament_color : Option String
  min_hotend : Option Int
  max_hotend : Option Int

/-- The function `parse_rfid_file` of `gen_excel.py` (lines 142-152): the
external read-and-parse call either yields a tag or raises; the `except`
arm turns any failure into `None`. -/
def parse_rfid_file (result : Except String ParsedTag) : Option ParsedTag :=
  match result with
  | .ok tag => some tag
  | .error _ => none

/-- The temperature-range formatting of `main` (`gen_excel.py` lines
185-196). -/
def temp_range (tag : ParsedTag) : String :=
  match tag.min_hotend, tag.max_hotend with
  | some mn, some mx => toString mn ++ "-" ++ toString mx ++ "°C"
  | some mn, none => toString mn ++ "°C"
  | none, some mx => toString mx ++ "°C"
  | none, none => "未知"

/-- One row of the report, with the five columns written by `main`
(`gen_excel.py` lines 199-205 and 215-221): 材料类型, 颜色, UID, 颜色代码,
打印温度. -/
structure Row where
  material_type : String
  color : String
  uid : String
  color_code : String
  print_temp : String
deriving DecidableEq, Repr

/-- One iteration of the report loop of `main` (`gen_excel.py` lines
174-222): path-derived info, the guarded parse call, and either the parsed
row or the parse-failure row. -/
def makeRow (path_parts : List String) (parseResult : Except String ParsedTag) :
    Row :=
  let info := extract_path_info path_parts
  let material_type := info.2.1
  let color_display := info.2.2.2.2
  match parse_rfid_file parseResult with
  | some tag =>
      { material_type := material_type
        color := color_display
        uid := tag.uid.getD "未知"
        color_code := tag.filament_color.getD "未知"
        print_temp := temp_range tag }
  | none =>
      { material_type := material_type
        color := color_display
        uid := "解析失败"
        color_code := "解析失败"
        print_temp := "解析失败" }

/-- The report loop of `main` over all found files (`gen_excel.py` lines
174-222), each file paired with the outcome of its external parse call. -/
def processFiles (items : List (List String × Except String ParsedTag)) :
    List Row :=
  items.map (fun it => makeRow it.1 it.2)

/-! Spec-side definitions, written from the specification's words and
compared with the embedded code by the theorems below. -/

/-- Spec-side predicate: a hexadecimal digit in any mix of upper and lower
case (spec §3, "every character a hexadecimal digit (case-insensitive)"). -/
def specIsHexDigit (c : Char) : Prop :=
  ('0' ≤ c ∧ c ≤ '9') ∨ ('A' ≤ c ∧ c ≤ 'F') ∨ ('a' ≤ c ∧ c ≤ 'f')

instance (c : Char) : Decidable (specIsHexDigit c) := by
  unfold specIsHexDigit
  infer_instance

/-- Spec-side content of one six-byte key slot of the Key-Material Blob
(spec §3): the decoded bytes of the sector's named key when the sector
entry and the key field are present, and the six default bytes
`FF FF FF FF FF FF` when the sector entry or the key field is missing. -/
def specSlot (skFields : List (String × JValue)) (keyName : String)
    (s : Nat) : List Nat :=
  match jlookup skFields (toString s) with
  | some (.obj ef) =>
      match jlookup ef keyName with
      | some (.str hs) => (fromhex hs).getD (List.replicate 6 255)
      | _ => List.replicate 6 255
  | _ => List.replicate 6 255

/-- A 12-character hexadecimal string (the well-formed key format of spec
§3). -/
def isHex12 (s : String) : Bool :=
  s.length == 12 && s.data.all (fun c => (hexDigitVal c).isSome)

/-- The named key field of a sector entry is either absent or a
well-formed 12-character hexadecimal string. -/
def goodKeyField (ef : List (String × JValue)) (keyName : String) : Bool :=
  match jlookup ef keyName with
  | none => true
  | some (.str hs) => isHex12 hs
  | some _ => false

/-- A present sector entry is an object whose `KeyA`/`KeyB` fields, when
present, are well-formed 12-character hexadecimal strings. -/
def goodSectorEntry (v : JValue) : Bool :=
  match v with
  | .obj ef => goodKeyField ef "KeyA" && goodKeyField ef "KeyB"
  | _ => false

/-- Every sector entry of `SectorKeys` that is present for sectors 0..15 is
well formed. -/
def goodSectorKeys (skFields : List (String × JValue)) : Bool :=
  (List.range 16).all (fun s =>
    match jlookup skFields (toString s) with
    | none => true
    | some v => goodSectorEntry v)

/-- The chained document access `data['Card']['UID']` of
`gen_missing_key.py` line 57. -/
def uidLookup (doc : JValue) : Except String JValue := do
  getItem (← getItem doc "Card") "UID"

/-! Helper lemmas. -/

theorem except_bind_ok {α β ε : Type} (a : α) (f : α → Except ε β) :
    (Except.ok a >>= f) = f a := rfl

theorem except_bind_error {α β ε : Type} (e : ε) (f : α → Except ε β) :
    ((Except.error e : Except ε α) >>= f) = .error e := rfl

/-- An accumulating monadic fold whose every step succeeds collects the
concatenation of the step results. -/
theorem foldlM_append_ok {α : Type} (f : α → Except String (List Nat))
    (g : α → List Nat) :
    ∀ (xs : List α) (init : List Nat), (∀ x ∈ xs, f x = .ok (g x)) →
      xs.foldlM (fun acc x => do
        let bs ← f x
        pure (acc ++ bs)) init = .ok (init ++ (xs.map g).flatten) := by
  intro xs
  induction xs with
  | nil =>
      intro init _
      simp only [List.map_nil, List.flatten_nil, List.append_nil]
      rfl
  | cons a l ih =>
      intro init h
      have ha : f a = .ok (g a) := h a (List.mem_cons_self a l)
      have hl : ∀ x ∈ l, f x = .ok (g x) :=
        fun x hx => h x (List.mem_cons_of_mem a hx)
      simp only [List.foldlM, ha, except_bind_ok, pure_bind]
      rw [ih (init ++ g a) hl]
      simp

/-- When an accumulating monadic fold succeeds, every step succeeded. -/
theorem steps_ok_of_foldlM_ok {α : Type} (f : α → Except String (List Nat)) :
    ∀ (xs : List α) (init r : List Nat),
      xs.foldlM (fun acc x => do
        let bs ← f x
        pure (acc ++ bs)) init = .ok r →
      ∀ x ∈ xs, ∃ bs, f x = .ok bs := by
  intro xs
  induction xs with
  | nil => intro init r _ x hx; cases hx
  | cons a l ih =>
      intro init r hfold x hx
      rcases hfa : f a with e | bs
      · rw [List.foldlM] at hfold
        rw [hfa] at hfold
        simp [except_bind_error] at hfold
      · rcases List.mem_cons.1 hx with rfl | hxl
        · exact ⟨bs, hfa⟩
        · apply ih (init ++ bs) r ?_ x hxl
          rw [List.foldlM] at hfold
          rw [hfa] at hfold
          simpa [except_bind_ok] using hfold

/-- A character whose code point is known is that character. -/
theorem char_eq_of_toNat (c : Char) (n : Nat) (h : c.toNat = n) :
    c = Char.ofNat n := by
  rw [← h, Char.ofNat_toNat]

/-- A hexadecimal digit is never one of the whitespace characters
`bytes.fromhex` skips. -/
theorem not_space_of_hex (c : Char) (h : (hexDigitVal c).isSome = true) :
    pyIsSpace c = false := by
  have hn : c.toNat = 48 ∨ c.toNat = 49 ∨ c.toNat = 50 ∨ c.toNat = 51 ∨
      c.toNat = 52 ∨ c.toNat = 53 ∨ c.toNat = 54 ∨ c.toNat = 55 ∨
      c.toNat = 56 ∨ c.toNat = 57 ∨ c.toNat = 65 ∨ c.toNat = 66 ∨
      c.toNat = 67 ∨ c.toNat = 68 ∨ c.toNat = 69 ∨ c.toNat = 70 ∨
      c.toNat = 97 ∨ c.toNat = 98 ∨ c.toNat = 99 ∨ c.toNat = 100 ∨
      c.toNat = 101 ∨ c.toNat = 102 := by
    rw [hexDigitVal] at h
    split_ifs at h with h1 h2 h3
    · have ha : 48 ≤ c.toNat := h1.1
      have hb : c.toNat ≤ 57 := h1.2
      omega
    · have ha : 65 ≤ c.toNat := h2.1
      have hb : c.toNat ≤ 70 := h2.2
      omega
    · have ha : 97 ≤ c.toNat := h3.1
      have hb : c.toNat ≤ 102 := h3.2
      omega
    · simp at h
  rcases hn with h | h | h | h | h | h | h | h | h | h | h | h | h | h | h |
    h | h | h | h | h | h | h <;> rw [char_eq_of_toNat c _ h] <;> decide

/-- A list of hex digits of even length (with no whitespace) decodes, to
half as many bytes. -/
theorem fromhexChars_ok : ∀ (l : List Char),
    (∀ c ∈ l, (hexDigitVal c).isSome = true) → l.length % 2 = 0 →
    ∃ bs, fromhexChars l = some bs ∧ bs.length = l.length / 2
  | [] => fun _ _ => ⟨[], rfl, rfl⟩
  | [c] => by
      intro _ hlen
      simp at hlen
  | c₁ :: c₂ :: rest => by
      intro hhex hlen
      have hs₁ := not_space_of_hex c₁ (hhex c₁ (by simp))
      obtain ⟨h₁, hv₁⟩ := Option.isSome_iff_exists.1 (hhex c₁ (by simp))
      obtain ⟨h₂, hv₂⟩ := Option.isSome_iff_exists.1 (hhex c₂ (by simp))
      obtain ⟨bs, hbs, hbslen⟩ := fromhexChars_ok rest
        (fun c hc => hhex c (by simp [hc]))
        (by simp only [List.length_cons] at hlen; omega)
      refine ⟨(16 * h₁ + h₂) :: bs, ?_, ?_⟩
      · simp [fromhexChars, hs₁, hv₁, hv₂, hbs]
      · simp [hbslen]
        omega

/-- A well-formed 12-character hexadecimal string decodes to exactly six
bytes. -/
theorem fromhex_of_isHex12 (s : String) (h : isHex12 s = true) :
    ∃ bs, fromhex s = some bs ∧ bs.length = 6 := by
  rw [isHex12, Bool.and_eq_true] at h
  obtain ⟨h1, h2⟩ := h
  have hlen0 : s.length = 12 := by simpa using h1
  have hlen : s.data.length = 12 := hlen0
  have hall : ∀ c ∈ s.data, (hexDigitVal c).isSome = true := by
    simpa [List.all_eq_true] using h2
  obtain ⟨bs, hbs, hbslen⟩ := fromhexChars_ok s.data hall (by omega)
  exact ⟨bs, hbs, by omega⟩

/-- Extraction of the `i`-th block from the concatenation of equal-length
blocks. -/
theorem flatten_map_drop_take {β : Type} (g : β → List Nat) (k : Nat) :
    ∀ (l : List β) (i : Nat) (hi : i < l.length),
      (∀ b ∈ l, (g b).length = k) →
      (((l.map g).flatten).drop (k * i)).take k = g (l.get ⟨i, hi⟩) := by
  intro l
  induction l with
  | nil => intro i hi; cases hi
  | cons b t ih =>
      intro i hi hlen
      cases i with
      | zero =>
          simp only [List.map_cons, List.flatten_cons, Nat.mul_zero, List.drop_zero]
          rw [List.take_append_of_le_length (by rw [hlen b (by simp)])]
          simp [List.take_of_length_le, hlen b (by simp)]
      | succ j =>
          have hj : j < t.length := by simpa using hi
          have hstep : k * (j + 1) = (g b).length + k * j := by
            rw [hlen b (by simp)]; ring
          simp only [List.map_cons, List.flatten_cons, hstep]
          rw [List.drop_append (k * j)]
          exact ih j hj (fun x hx => hlen x (by simp [hx]))

theorem jlookup_nil (k : String) : jlookup [] k = none := rfl

theorem fromhex_default : fromhex "FFFFFFFFFFFF" = some (List.replicate 6 255) := by
  decide

theorem decodeKey_default :
    decodeKey (.str "FFFFFFFFFFFF") = .ok (List.replicate 6 255) := by
  simp [decodeKey, fromhex_default]

/-- Under the well-formedness hypothesis, one loop iteration of the key
collection succeeds and computes exactly the spec-side slot content, a
six-byte block. -/
theorem keyStep_eq_specSlot (skFields : List (String × JValue))
    (keyName : String) (s : Nat)
    (hgood : (match jlookup skFields (toString s) with
              | none => true
              | some v => goodSectorEntry v) = true)
    (hkey : keyName = "KeyA" ∨ keyName = "KeyB") :
    keyStep (.obj skFields) keyName s = .ok (specSlot skFields keyName s) ∧
    (specSlot skFields keyName s).length = 6 := by
  rcases hsk : jlookup skFields (toString s) with _ | v
  · constructor
    · simp only [keyStep, dictGet, hsk, Option.getD_none, except_bind_ok,
        jlookup_nil, decodeKey_default, specSlot]
    · simp [specSlot, hsk]
  · have hv : goodSectorEntry v = true := by
      rw [hsk] at hgood
      exact hgood
    rcases v with _ | b | n | hs | elems | ef
    · simp [goodSectorEntry] at hv
    · simp [goodSectorEntry] at hv
    · simp [goodSectorEntry] at hv
    · simp [goodSectorEntry] at hv
    · simp [goodSectorEntry] at hv
    · rw [goodSectorEntry, Bool.and_eq_true] at hv
      have hkf : goodKeyField ef keyName = true := by
        rcases hkey with rfl | rfl
        · exact hv.1
        · exact hv.2
      rcases hef : jlookup ef keyName with _ | kv
      · constructor
        · simp only [keyStep, dictGet, hsk, Option.getD_some, except_bind_ok,
            hef, Option.getD_none, decodeKey_default, specSlot]
        · simp [specSlot, hsk, hef]
      · rcases kv with _ | b' | n' | hstr | elems' | ef'
        · simp [goodKeyField, hef] at hkf
        · simp [goodKeyField, hef] at hkf
        · simp [goodKeyField, hef] at hkf
        · simp only [goodKeyField, hef] at hkf
          obtain ⟨bs, hbs, hbslen⟩ := fromhex_of_isHex12 hstr hkf
          constructor
          · simp only [keyStep, dictGet, hsk, Option.getD_some, except_bind_ok,
              hef, specSlot, decodeKey, hbs]
          · simp [specSlot, hsk, hef, hbs, hbslen]
        · simp [goodKeyField, hef] at hkf
        · simp [goodKeyField, hef] at hkf

/-- Under the well-formedness hypothesis, one whole key-collection loop
succeeds and produces the concatenation of the sixteen spec-side slots, in
ascending sector order. -/
theorem collectKeys_eq_specSlots (skFields : List (String × JValue))
    (keyName : String) (hgood : goodSectorKeys skFields = true)
    (hkey : keyName = "KeyA" ∨ keyName = "KeyB") :
    collectKeys (.obj skFields) keyName =
      .ok (((List.range 16).map (specSlot skFields keyName)).flatten) := by
  rw [collectKeys]
  have hall := List.all_eq_true.1 hgood
  have hsteps : ∀ s ∈ List.range 16,
      keyStep (.obj skFields) keyName s = .ok (specSlot skFields keyName s) :=
    fun s hs => (keyStep_eq_specSlot skFields keyName s (hall s hs) hkey).1
  have := foldlM_append_ok (keyStep (.obj skFields) keyName)
    (specSlot skFields keyName) (List.range 16) [] hsteps
  simpa using this

/-- Under the well-formedness hypothesis, the sixteen concatenated slots of
one key-collection loop are 96 bytes. -/
theorem specSlots_flatten_length (skFields : List (String × JValue))
    (keyName : String) (hgood : goodSectorKeys skFields = true)
    (hkey : keyName = "KeyA" ∨ keyName = "KeyB") :
    (((List.range 16).map (specSlot skFields keyName)).flatten).length = 96 := by
  have hall := List.all_eq_true.1 hgood
  have hlen : ∀ s ∈ List.range 16, (specSlot skFields keyName s).length = 6 :=
    fun s hs => (keyStep_eq_specSlot skFields keyName s (hall s hs) hkey).2
  rw [List.length_flatten]
  have hmap : ((List.range 16).map (specSlot skFields keyName)).map
      List.length = (List.range 16).map (fun _ => 6) := by
    rw [List.map_map]
    exact List.map_congr_left (fun s hs => by simpa using hlen s hs)
  rw [hmap]
  decide

/-- C1: for every key-dump document containing `Card.UID` and `SectorKeys`
in which every present sector entry is an object and every present
`KeyA`/`KeyB` value is a 12-character hexadecimal string,
`generate_key_file` succeeds and produces a 192-byte blob laid out as the
16 KeyA values for sectors 0..15 in ascending order followed by the 16 KeyB
values for sectors 0..15 in ascending order, every missing sector entry or
missing `KeyA`/`KeyB` field being replaced by the six default bytes
`FF FF FF FF FF FF`: the six bytes at offset `6*s` are sector `s`'s KeyA
slot and the six bytes at offset `96 + 6*s` are sector `s`'s KeyB slot. -/
theorem generate_key_file_layout (doc card uid : JValue)
    (skFields : List (String × JValue))
    (hcard : getItem doc "Card" = .ok card)
    (huid : getItem card "UID" = .ok uid)
    (hsk : getItem doc "SectorKeys" = .ok (.obj skFields))
    (hgood : goodSectorKeys skFields = true) :
    ∃ blob : List Nat,
      generate_key_file doc = .ok (blob, "hf-mf-" ++ pyStr uid ++ "-key.bin") ∧
      blob.length = 192 ∧
      blob = ((List.range 16).map (specSlot skFields "KeyA")).flatten ++
             ((List.range 16).map (specSlot skFields "KeyB")).flatten ∧
      ∀ s : Nat, s < 16 →
        (blob.drop (6 * s)).take 6 = specSlot skFields "KeyA" s ∧
        (blob.drop (96 + 6 * s)).take 6 = specSlot skFields "KeyB" s := by
  have hA := collectKeys_eq_specSlots skFields "KeyA" hgood (Or.inl rfl)
  have hB := collectKeys_eq_specSlots skFields "KeyB" hgood (Or.inr rfl)
  have hAlen := specSlots_flatten_length skFields "KeyA" hgood (Or.inl rfl)
  have hBlen := specSlots_flatten_length skFields "KeyB" hgood (Or.inr rfl)
  have hallA : ∀ s ∈ List.range 16, (specSlot skFields "KeyA" s).length = 6 :=
    fun s hs => (keyStep_eq_specSlot skFields "KeyA" s
      ((List.all_eq_true.1 hgood) s hs) (Or.inl rfl)).2
  have hallB : ∀ s ∈ List.range 16, (specSlot skFields "KeyB" s).length = 6 :=
    fun s hs => (keyStep_eq_specSlot skFields "KeyB" s
      ((List.all_eq_true.1 hgood) s hs) (Or.inr rfl)).2
  refine ⟨_, ?_, ?_, rfl, ?_⟩
  · simp only [generate_key_file, hcard, huid, hsk, hA, hB, except_bind_ok]
    rfl
  · rw [List.length_append, hAlen, hBlen]
  · intro s hs
    have hsmem : s ∈ List.range 16 := List.mem_range.2 hs
    constructor
    · rw [List.drop_append_of_le_length (by rw [hAlen]; omega),
        List.take_append_of_le_length (by
          rw [List.length_drop, hAlen]; omega)]
      have := flatten_map_drop_take (specSlot skFields "KeyA") 6
        (List.range 16) s (by simpa using hs) hallA
      simpa [List.get_range] using this
    · have hdrop : (((List.range 16).map (specSlot skFields "KeyA")).flatten ++
          ((List.range 16).map (specSlot skFields "KeyB")).flatten).drop
            (((List.range 16).map (specSlot skFields "KeyA")).flatten.length +
              6 * s) =
          (((List.range 16).map (specSlot skFields "KeyB")).flatten).drop
            (6 * s) := List.drop_append (6 * s)
      rw [hAlen] at hdrop
      rw [hdrop]
      have := flatten_map_drop_take (specSlot skFields "KeyB") 6
        (List.range 16) s (by simpa using hs) hallB
      simpa [List.get_range] using this

/-- The `Card` object of the concrete example document. -/
def c1card : JValue := .obj [("UID", .str "04AABBCC")]

/-- The `SectorKeys` fields of the concrete example document. -/
def c1sk : List (String × JValue) := [("3", .obj [("KeyA", .str "AABBCCDDEEFF")])]

/-- The key-dump document of the spec's concrete example (§8): `SectorKeys`
contains only sector `"3"`, with `KeyA = "AABBCCDDEEFF"`. -/
def c1doc : JValue :=
  .obj [("Card", c1card), ("SectorKeys", .obj c1sk)]

set_option maxRecDepth 8192 in
/-- Witness for C1 at the spec's concrete example: the hypotheses hold, the
general theorem applies, and the produced blob is explicitly the 192 bytes
with `AA BB CC DD EE FF` at offsets 18..24 and `FF` everywhere else. -/
theorem generate_key_file_layout_witness :
    (getItem c1doc "Card" = .ok c1card ∧
     getItem c1card "UID" = .ok (.str "04AABBCC") ∧
     getItem c1doc "SectorKeys" = .ok (.obj c1sk) ∧
     goodSectorKeys c1sk = true) ∧
    (∃ blob : List Nat,
      generate_key_file c1doc =
        .ok (blob, "hf-mf-" ++ pyStr (.str "04AABBCC") ++ "-key.bin") ∧
      blob.length = 192 ∧
      blob = ((List.range 16).map (specSlot c1sk "KeyA")).flatten ++
        ((List.range 16).map (specSlot c1sk "KeyB")).flatten ∧
      ∀ s : Nat, s < 16 →
        (blob.drop (6 * s)).take 6 = specSlot c1sk "KeyA" s ∧
        (blob.drop (96 + 6 * s)).take 6 = specSlot c1sk "KeyB" s) ∧
    generate_key_file c1doc =
      .ok (List.replicate 18 255 ++ [170, 187, 204, 221, 238, 255] ++
        List.replicate 168 255, "hf-mf-04AABBCC-key.bin") := by
  refine ⟨⟨rfl, rfl, rfl, by decide⟩, ?_, ?_⟩
  · exact generate_key_file_layout c1doc c1card (.str "04AABBCC") c1sk
      rfl rfl rfl (by decide)
  · rfl

/-- A document with `Card.UID` but with the `SectorKeys` key missing
entirely. -/
def c2doc : JValue := .obj [("Card", .obj [("UID", .str "12345678")])]

/-- Counterexample to C2: on a document containing `Card.UID` but missing
the `SectorKeys` key entirely, `generate_key_file` does not succeed with an
all-`FF` blob — `data['SectorKeys']` has no fallback, so synthesis fails
with a `KeyError` for that directory. -/
theorem c2_missing_sectorkeys_fails :
    generate_key_file c2doc = .error "KeyError: SectorKeys" := rfl

set_option maxRecDepth 8192 in
/-- C2 amended: a document missing the `SectorKeys` key entirely fails
synthesis for that directory (the missing key is fatal, exactly like a
missing `Card.UID`); it is a document whose `SectorKeys` is present but an
empty object that yields the valid 192-byte all-`FF` blob (full default
fallback). -/
theorem generate_key_file_sectorkeys_default :
    (∀ fields : List (String × JValue), jlookup fields "SectorKeys" = none →
      ∃ e, generate_key_file (.obj fields) = .error e) ∧
    (∀ doc card uid : JValue,
      getItem doc "Card" = .ok card → getItem card "UID" = .ok uid →
      getItem doc "SectorKeys" = .ok (.obj []) →
      generate_key_file doc =
        .ok (List.replicate 192 255, "hf-mf-" ++ pyStr uid ++ "-key.bin")) := by
  constructor
  · intro fields hnone
    rcases hc : getItem (.obj fields) "Card" with e | card
    · exact ⟨e, by simp [generate_key_file, hc, except_bind_error]⟩
    · rcases hu : getItem card "UID" with e | uid
      · exact ⟨e, by
          simp [generate_key_file, hc, hu, except_bind_ok, except_bind_error]⟩
      · refine ⟨"KeyError: SectorKeys", ?_⟩
        have hsk : getItem (.obj fields) "SectorKeys" =
            .error "KeyError: SectorKeys" := by
          simp [getItem, hnone]
        simp [generate_key_file, hc, hu, hsk, except_bind_ok, except_bind_error]
  · intro doc card uid hc hu hsk
    have hA : collectKeys (.obj []) "KeyA" = .ok (List.replicate 96 255) := rfl
    have hB : collectKeys (.obj []) "KeyB" = .ok (List.replicate 96 255) := rfl
    have hrep : List.replicate 96 (255 : Nat) ++ List.replicate 96 255 =
        List.replicate 192 255 := by
      rw [← List.replicate_add]
    simp only [generate_key_file, hc, hu, hsk, hA, hB, except_bind_ok, hrep]
    rfl

/-- A document with `Card.UID` and a present but empty `SectorKeys`
object. -/
def c2edoc : JValue :=
  .obj [("Card", .obj [("UID", .str "12345678")]), ("SectorKeys", .obj [])]

set_option maxRecDepth 8192 in
/-- Witness for the amended C2 at concrete documents: the missing-key
document fails, the empty-object document yields the all-`FF` 192-byte
blob. -/
theorem generate_key_file_sectorkeys_default_witness :
    (jlookup [("Card", JValue.obj [("UID", JValue.str "12345678")])]
        "SectorKeys" = none ∧
      ∃ e, generate_key_file c2doc = .error e) ∧
    generate_key_file c2edoc =
      .ok (List.replicate 192 255, "hf-mf-12345678-key.bin") := by
  constructor
  · exact ⟨rfl, generate_key_file_sectorkeys_default.1
      [("Card", JValue.obj [("UID", JValue.str "12345678")])] rfl⟩
  · exact generate_key_file_sectorkeys_default.2 c2edoc
      (.obj [("UID", .str "12345678")]) (.str "12345678") rfl rfl rfl

/-- A document whose sector-0 `KeyA` is the 2-character hexadecimal string
`"AB"` (valid hex, but not 12 characters). -/
def c3doc : JValue :=
  .obj [("Card", .obj [("UID", .str "04AABBCC")]),
        ("SectorKeys", .obj [("0", .obj [("KeyA", .str "AB")])])]

/-- A document whose sector-0 `KeyA` is the 5-character string `"AA BB"`
(two hex byte pairs separated by a space). -/
def c3docSpace : JValue :=
  .obj [("Card", .obj [("UID", .str "04AABBCC")]),
        ("SectorKeys", .obj [("0", .obj [("KeyA", .str "AA BB")])])]

set_option maxRecDepth 8192 in
/-- Counterexample to C3: `bytes.fromhex` enforces no 12-character length
check, so a `KeyA` string of length 2 is accepted and synthesis succeeds
with a 187-byte blob (`AB` then 186 `FF` bytes) instead of failing; and a
space-separated `"AA BB"` — 5 characters, one of them not hexadecimal — is
also accepted (the decoder skips whitespace between byte pairs), giving a
188-byte blob. -/
theorem c3_short_key_accepted :
    generate_key_file c3doc =
      .ok (171 :: List.replicate 186 255, "hf-mf-04AABBCC-key.bin") ∧
    generate_key_file c3docSpace =
      .ok (170 :: 187 :: List.replicate 186 255, "hf-mf-04AABBCC-key.bin") :=
  ⟨rfl, rfl⟩

/-- C3 amended: for every sector entry whose `KeyA` or `KeyB` value is a
string that `bytes.fromhex` rejects — after its tolerance for ASCII
whitespace between byte pairs, a non-hexadecimal character, whitespace
splitting a digit pair, or an odd number of hex digits — synthesis fails
for that directory at the decoding step; neither the 12-character length
nor the absence of whitespace is enforced. -/
theorem generate_key_file_bad_hex_fails (doc card uid : JValue)
    (skFields ef : List (String × JValue))
    (hcard : getItem doc "Card" = .ok card)
    (huid : getItem card "UID" = .ok uid)
    (hsk : getItem doc "SectorKeys" = .ok (.obj skFields))
    (s : Nat) (hs : s < 16)
    (hentry : jlookup skFields (toString s) = some (.obj ef))
    (hbad : (∃ h', jlookup ef "KeyA" = some (.str h') ∧ fromhex h' = none) ∨
            (∃ h', jlookup ef "KeyB" = some (.str h') ∧ fromhex h' = none)) :
    ∃ e, generate_key_file doc = .error e := by
  rcases hres : generate_key_file doc with e | r
  · exact ⟨e, rfl⟩
  · exfalso
    simp only [generate_key_file, hcard, huid, hsk, except_bind_ok] at hres
    rcases hA : collectKeys (.obj skFields) "KeyA" with e | a
    · rw [hA] at hres
      simp [except_bind_error] at hres
    · rw [hA] at hres
      rcases hB : collectKeys (.obj skFields) "KeyB" with e | b
      · rw [hB] at hres
        simp [except_bind_ok, except_bind_error] at hres
      · rcases hbad with ⟨h', hlook, hnone⟩ | ⟨h', hlook, hnone⟩
        · obtain ⟨bs, hbs⟩ := steps_ok_of_foldlM_ok
            (keyStep (.obj skFields) "KeyA") (List.range 16) [] a
            (by rw [collectKeys] at hA; exact hA) s (List.mem_range.2 hs)
          have hstep : keyStep (.obj skFields) "KeyA" s =
              .error "ValueError: non-hexadecimal number found in fromhex() arg" := by
            simp only [keyStep, dictGet, hentry, Option.getD_some,
              except_bind_ok, hlook, decodeKey, hnone]
          rw [hstep] at hbs
          cases hbs
        · obtain ⟨bs, hbs⟩ := steps_ok_of_foldlM_ok
            (keyStep (.obj skFields) "KeyB") (List.range 16) [] b
            (by rw [collectKeys] at hB; exact hB) s (List.mem_range.2 hs)
          have hstep : keyStep (.obj skFields) "KeyB" s =
              .error "ValueError: non-hexadecimal number found in fromhex() arg" := by
            simp only [keyStep, dictGet, hentry, Option.getD_some,
              except_bind_ok, hlook, decodeKey, hnone]
          rw [hstep] at hbs
          cases hbs

/-- A document whose sector-0 `KeyA` is the non-hexadecimal string
`"GG"`. -/
def c3bad : JValue :=
  .obj [("Card", .obj [("UID", .str "04AABBCC")]),
        ("SectorKeys", .obj [("0", .obj [("KeyA", .str "GG")])])]

/-- Witness for the amended C3 at a concrete document: a non-hexadecimal
sector-0 `KeyA` makes synthesis fail. -/
theorem generate_key_file_bad_hex_fails_witness :
    ((0 : Nat) < 16 ∧
      jlookup [("0", JValue.obj [("KeyA", JValue.str "GG")])] (toString 0) =
        some (.obj [("KeyA", .str "GG")]) ∧
      fromhex "GG" = none) ∧
    ∃ e, generate_key_file c3bad = .error e := by
  refine ⟨⟨by decide, rfl, rfl⟩, ?_⟩
  exact generate_key_file_bad_hex_fails c3bad (.obj [("UID", .str "04AABBCC")])
    (.str "04AABBCC") [("0", .obj [("KeyA", .str "GG")])]
    [("KeyA", .str "GG")] rfl rfl rfl 0 (by decide) rfl
    (Or.inl ⟨"GG", rfl, rfl⟩)

/-- The batch loop counts one success or one failure per processed item. -/
theorem batch_counts (items : List (String × JValue)) :
    ∀ acc : BatchResult,
      (items.foldl processDir acc).success_count +
        (items.foldl processDir acc).failed_count =
      acc.success_count + acc.failed_count + items.length := by
  induction items with
  | nil => intro acc; simp
  | cons it l ih =>
      intro acc
      rw [List.foldl_cons, ih]
      rcases h : generate_key_file it.2 with e | r <;>
        simp [processDir, h] <;> omega

/-- The failed-directory list of the batch loop only grows. -/
theorem batch_failed_subset (items : List (String × JValue)) :
    ∀ acc : BatchResult,
      acc.failed_dirs ⊆ (items.foldl processDir acc).failed_dirs := by
  induction items with
  | nil => intro acc; simp
  | cons it l ih =>
      intro acc
      rw [List.foldl_cons]
      refine List.Subset.trans ?_ (ih (processDir acc it))
      rcases h : generate_key_file it.2 with e | r <;> simp [processDir, h]

/-- Every item whose synthesis fails ends up in the failed-directory
list. -/
theorem batch_failed_mem (items : List (String × JValue)) :
    ∀ (acc : BatchResult) (d : String) (doc : JValue),
      (d, doc) ∈ items → (∃ e, generate_key_file doc = .error e) →
      d ∈ (items.foldl processDir acc).failed_dirs := by
  induction items with
  | nil => intro acc d doc hmem; cases hmem
  | cons it l ih =>
      intro acc d doc hmem herr
      rw [List.foldl_cons]
      rcases List.mem_cons.1 hmem with rfl | hl
      · obtain ⟨e, he⟩ := herr
        refine batch_failed_subset l (processDir acc (d, doc)) ?_
        simp [processDir, he]
      · exact ih (processDir acc it) d doc hl herr

/-- A failing `data['Card']['UID']` access makes the whole synthesis call
fail. -/
theorem generate_key_file_error_of_uid_error (doc : JValue)
    (h : ∃ e, uidLookup doc = .error e) :
    ∃ e, generate_key_file doc = .error e := by
  obtain ⟨e, he⟩ := h
  rw [uidLookup] at he
  rcases hc : getItem doc "Card" with e' | card
  · exact ⟨e', by simp [generate_key_file, hc, except_bind_error]⟩
  · rw [hc] at he
    simp only [except_bind_ok] at he
    exact ⟨e, by
      simp [generate_key_file, hc, he, except_bind_ok, except_bind_error]⟩

/-- C4: a document whose `Card.UID` access fails (missing `Card`, missing
`UID`, or a non-object on the way — no defaulting happens) makes synthesis
fail for that directory; the batch loop records the failure (the directory
joins the failed list) and no exception propagates: every item of the batch
is still processed, one success or failure being counted per item. -/
theorem runBatch_missing_uid_isolated (items : List (String × JValue)) :
    (runBatch items).success_count + (runBatch items).failed_count =
      items.length ∧
    ∀ d doc, (d, doc) ∈ items → (∃ e, uidLookup doc = .error e) →
      (∃ e, generate_key_file doc = .error e) ∧
      d ∈ (runBatch items).failed_dirs := by
  constructor
  · have := batch_counts items ⟨0, 0, []⟩
    simpa [runBatch] using this
  · intro d doc hmem herr
    have hgen := generate_key_file_error_of_uid_error doc herr
    exact ⟨hgen, batch_failed_mem items ⟨0, 0, []⟩ d doc hmem hgen⟩

/-- A document missing the `Card` key entirely. -/
def c4doc : JValue := .obj [("SectorKeys", .obj [])]

/-- A well-formed document processed alongside the failing one. -/
def c4good : JValue :=
  .obj [("Card", .obj [("UID", .str "ABCD1234")]), ("SectorKeys", .obj [])]

/-- Witness for C4 on a concrete two-directory batch: the directory with
the UID-less document fails and is recorded, and both items are counted. -/
theorem runBatch_missing_uid_isolated_witness :
    (("dirA", c4doc) ∈ [("dirA", c4doc), ("dirB", c4good)] ∧
      ∃ e, uidLookup c4doc = .error e) ∧
    (runBatch [("dirA", c4doc), ("dirB", c4good)]).success_count +
      (runBatch [("dirA", c4doc), ("dirB", c4good)]).failed_count = 2 ∧
    "dirA" ∈ (runBatch [("dirA", c4doc), ("dirB", c4good)]).failed_dirs := by
  have h := runBatch_missing_uid_isolated [("dirA", c4doc), ("dirB", c4good)]
  exact ⟨⟨by simp, ⟨"KeyError: Card", rfl⟩⟩, h.1,
    (h.2 "dirA" c4doc (by simp) ⟨"KeyError: Card", rfl⟩).2⟩

/-- C10: `generate_key_file` is total at its call boundary (it returns a
success or a failure, never propagates), a failing call writes no file, and
a successful call writes exactly the returned blob under the returned name,
the write happening only after the document accesses and both key-collection
loops (all 32 key decodings) have succeeded. -/
theorem generate_key_file_total_atomic (doc : JValue) :
    ((∃ r, generate_key_file doc = .ok r) ∨
      (∃ e, generate_key_file doc = .error e)) ∧
    (∀ e, generate_key_file doc = .error e →
      generate_key_file_writes doc = []) ∧
    (∀ r, generate_key_file doc = .ok r →
      generate_key_file_writes doc = [(r.2, r.1)] ∧
      ∃ sk a b, getItem doc "SectorKeys" = .ok sk ∧
        collectKeys sk "KeyA" = .ok a ∧ collectKeys sk "KeyB" = .ok b ∧
        r.1 = a ++ b) := by
  refine ⟨?_, ?_, ?_⟩
  · rcases h : generate_key_file doc with e | r
    · exact Or.inr ⟨e, rfl⟩
    · exact Or.inl ⟨r, rfl⟩
  · intro e he
    simp [generate_key_file_writes, he]
  · intro r hr
    refine ⟨by simp [generate_key_file_writes, hr], ?_⟩
    rcases hc : getItem doc "Card" with e | card
    · simp [generate_key_file, hc, except_bind_error] at hr
    · rcases hu : getItem card "UID" with e | uid
      · simp [generate_key_file, hc, hu, except_bind_ok, except_bind_error] at hr
      · rcases hsk : getItem doc "SectorKeys" with e | sk
        · simp [generate_key_file, hc, hu, hsk, except_bind_ok,
            except_bind_error] at hr
        · rcases hA : collectKeys sk "KeyA" with e | a
          · simp [generate_key_file, hc, hu, hsk, hA, except_bind_ok,
              except_bind_error] at hr
          · rcases hB : collectKeys sk "KeyB" with e | b
            · simp [generate_key_file, hc, hu, hsk, hA, hB, except_bind_ok,
                except_bind_error] at hr
            · refine ⟨sk, a, b, rfl, hA, hB, ?_⟩
              simp only [generate_key_file, hc, hu, hsk, hA, hB,
                except_bind_ok] at hr
              injection hr with h
              rw [← h]

/-- A well-formed document for the success half of the C10 witness. -/
def c10doc : JValue :=
  .obj [("Card", .obj [("UID", .str "DEADBEEF")]), ("SectorKeys", .obj [])]

set_option maxRecDepth 8192 in
/-- Witness for C10 at concrete documents: the empty-object document fails
and writes nothing; the well-formed document succeeds and writes exactly
the returned 192-byte blob under the derived name, after both loops
succeeded. -/
theorem generate_key_file_total_atomic_witness :
    generate_key_file_writes (JValue.obj []) = [] ∧
    generate_key_file_writes c10doc =
      [("hf-mf-DEADBEEF-key.bin", List.replicate 192 255)] ∧
    ∃ sk a b, getItem c10doc "SectorKeys" = .ok sk ∧
      collectKeys sk "KeyA" = .ok a ∧ collectKeys sk "KeyB" = .ok b ∧
      (List.replicate 192 (255 : Nat), "hf-mf-DEADBEEF-key.bin").1 = a ++ b := by
  have hok : generate_key_file c10doc =
      .ok (List.replicate 192 255, "hf-mf-DEADBEEF-key.bin") := rfl
  have h := (generate_key_file_total_atomic c10doc).2.2
    (List.replicate 192 255, "hf-mf-DEADBEEF-key.bin") hok
  exact ⟨(generate_key_file_total_atomic (JValue.obj [])).2.1
    "KeyError: Card" rfl, h.1, h.2⟩

/-- Every character of the classifier's literal is a hexadecimal digit. -/
theorem spec_of_mem_hexChars (c : Char) (h : c ∈ hexChars) :
    specIsHexDigit c := by
  fin_cases h <;> decide

/-- Every hexadecimal digit, upper or lower case, is in the classifier's
literal. -/
theorem mem_hexChars_of_spec (c : Char) (h : specIsHexDigit c) :
    c ∈ hexChars := by
  rcases h with ⟨h1, h2⟩ | ⟨h1, h2⟩ | ⟨h1, h2⟩
  · have h1' : 48 ≤ c.toNat := h1
    have h2' : c.toNat ≤ 57 := h2
    have hn : c.toNat = 48 ∨ c.toNat = 49 ∨ c.toNat = 50 ∨ c.toNat = 51 ∨
        c.toNat = 52 ∨ c.toNat = 53 ∨ c.toNat = 54 ∨ c.toNat = 55 ∨
        c.toNat = 56 ∨ c.toNat = 57 := by omega
    rcases hn with h | h | h | h | h | h | h | h | h | h <;>
      rw [char_eq_of_toNat c _ h] <;> decide
  · have h1' : 65 ≤ c.toNat := h1
    have h2' : c.toNat ≤ 70 := h2
    have hn : c.toNat = 65 ∨ c.toNat = 66 ∨ c.toNat = 67 ∨ c.toNat = 68 ∨
        c.toNat = 69 ∨ c.toNat = 70 := by omega
    rcases hn with h | h | h | h | h | h <;>
      rw [char_eq_of_toNat c _ h] <;> decide
  · have h1' : 97 ≤ c.toNat := h1
    have h2' : c.toNat ≤ 102 := h2
    have hn : c.toNat = 97 ∨ c.toNat = 98 ∨ c.toNat = 99 ∨ c.toNat = 100 ∨
        c.toNat = 101 ∨ c.toNat = 102 := by omega
    rcases hn with h | h | h | h | h | h <;>
      rw [char_eq_of_toNat c _ h] <;> decide

/-- C6: a directory name is classified as a tag directory exactly when its
length is 8 and every character is a hexadecimal digit, upper or lower
case; every other name is rejected. -/
theorem isTagDirName_iff (name : String) :
    isTagDirName name = true ↔
      name.length = 8 ∧ ∀ c ∈ name.data, specIsHexDigit c := by
  rw [isTagDirName, Bool.and_eq_true]
  constructor
  · rintro ⟨h1, h2⟩
    refine ⟨by simpa using h1, fun c hc => ?_⟩
    have := List.all_eq_true.1 h2 c hc
    exact spec_of_mem_hexChars c (List.elem_iff.1 this)
  · rintro ⟨h1, h2⟩
    refine ⟨by simpa using h1, List.all_eq_true.2 fun c hc => ?_⟩
    exact List.elem_iff.2 (mem_hexChars_of_spec c (h2 c hc))

/-- Witness for C6 at concrete names: an 8-character mixed-case hex name is
accepted, and the equivalence instantiates to it. -/
theorem isTagDirName_iff_witness :
    (isTagDirName "04aAbBcC" = true ↔
      ("04aAbBcC" : String).length = 8 ∧
        ∀ c ∈ ("04aAbBcC" : String).data, specIsHexDigit c) ∧
    isTagDirName "04aAbBcC" = true ∧
    isTagDirName "0123456" = false ∧
    isTagDirName "0123456G" = false := by
  exact ⟨isTagDirName_iff "04aAbBcC", by decide, by decide, by decide⟩

/-- Invariant of the `find_missing_key_files` walk: every selected entry
was produced at a directory whose parts do not contain `scripts`, and its
json file was chosen by the artifact test of some file list. -/
theorem visit_mem_inv : ∀ (n : Nat) (t : FSTree), sizeOf t ≤ n →
    ∀ (path : List String) (e : List String × String), e ∈ visit path t →
      "scripts" ∉ e.1 ∧ ∃ fs : List String, selectJson fs = some e.2 := by
  intro n
  induction n with
  | zero =>
      intro t ht
      exfalso
      cases t with
      | node name files subdirs =>
          simp only [FSTree.node.sizeOf_spec] at ht
          omega
  | succ m ih =>
      intro t ht path e he
      cases t with
      | node name files subdirs =>
          rw [visit] at he
          rcases List.mem_append.1 he with hhere | hrec
          · by_cases hscr : "scripts" ∈ path ++ [name]
            · simp [hscr] at hhere
            · by_cases htag : isTagDirName name = true
              · rcases hsel : selectJson files with _ | j
                · simp [hscr, htag, hsel] at hhere
                · simp only [hscr, htag, hsel, if_false, if_true,
                    List.mem_singleton, if_neg, if_pos] at hhere
                  rw [hhere]
                  exact ⟨hscr, files, hsel⟩
              · simp [hscr, htag] at hhere
          · simp only [List.mem_flatten, List.mem_map] at hrec
            obtain ⟨l', ⟨c, hc, hl'⟩, hel⟩ := hrec
            have hsz : sizeOf c.1 ≤ m := by
              have h1 := List.sizeOf_lt_of_mem c.2
              simp only [FSTree.node.sizeOf_spec] at ht
              omega
            rw [← hl'] at hel
            exact ih c.1 hsz (path ++ [name]) e hel

/-- Invariant of the `find_rfid_files` walk: every collected entry was
produced at a directory whose parts do not contain `scripts`. -/
theorem visitRfid_mem_inv : ∀ (n : Nat) (t : FSTree), sizeOf t ≤ n →
    ∀ (path : List String) (e : List String × String), e ∈ visitRfid path t →
      "scripts" ∉ e.1 := by
  intro n
  induction n with
  | zero =>
      intro t ht
      exfalso
      cases t with
      | node name files subdirs =>
          simp only [FSTree.node.sizeOf_spec] at ht
          omega
  | succ m ih =>
      intro t ht path e he
      cases t with
      | node name files subdirs =>
          rw [visitRfid] at he
          rcases List.mem_append.1 he with hhere | hrec
          · by_cases hscr : "scripts" ∈ path ++ [name]
            · simp [hscr] at hhere
            · by_cases htag : isTagDirName name = true
              · rw [if_neg hscr, if_pos htag, List.mem_map] at hhere
                obtain ⟨f, -, hf⟩ := hhere
                rw [← hf]
                exact hscr
              · simp [hscr, htag] at hhere
          · simp only [List.mem_flatten, List.mem_map] at hrec
            obtain ⟨l', ⟨c, hc, hl'⟩, hel⟩ := hrec
            have hsz : sizeOf c.1 ≤ m := by
              have h1 := List.sizeOf_lt_of_mem c.2
              simp only [FSTree.node.sizeOf_spec] at ht
              omega
            rw [← hl'] at hel
            exact ih c.1 hsz (path ++ [name]) e hel

/-- C7: no directory whose path contains `scripts` as a component ever
appears in the classification output of either traversal, even when it (or
a descendant) has a validly-shaped 8-character hexadecimal name: neither
`find_missing_key_files` nor `find_rfid_files` emits such an entry. -/
theorem scripts_never_classified :
    (∀ (root : FSTree) (e : List String × String),
      e ∈ find_missing_key_files root → "scripts" ∉ e.1) ∧
    (∀ (root : FSTree) (e : List String × String),
      e ∈ find_rfid_files root → "scripts" ∉ e.1) := by
  constructor
  · intro root e he
    rw [find_missing_key_files] at he
    simp only [List.mem_flatten, List.mem_map] at he
    obtain ⟨l', ⟨c, hc, hl'⟩, hel⟩ := he
    rw [← hl'] at hel
    exact (visit_mem_inv (sizeOf c.1) c.1 le_rfl [root.name] e hel).1
  · intro root e he
    rw [find_rfid_files] at he
    simp only [List.mem_flatten, List.mem_map] at he
    obtain ⟨l', ⟨c, hc, hl'⟩, hel⟩ := he
    rw [← hl'] at hel
    exact visitRfid_mem_inv (sizeOf c.1) c.1 le_rfl [root.name] e hel

/-- A concrete tree for the C7 witness: a validly-shaped hex directory with
a dump inside a `scripts` subtree, and one outside it. -/
def c7tree : FSTree :=
  .node ".." []
    [.node "scripts" [] [.node "AABBCC22" ["z-dump.json", "z-dump.bin"] []],
     .node "PLA" []
       [.node "AABBCC11" ["y-dump.json", "y-dump.bin"] [],
        .node "scripts" [] [.node "AABBCC33" ["w-dump.json", "w-dump.bin"] []]]]

/-- Membership introduction for `find_missing_key_files`: an entry of the
walk of a surviving root child is an entry of the whole traversal. -/
theorem mem_find_missing_of (root c : FSTree)
    (hc : c ∈ root.subdirs.eraseP (fun t => t.name == "scripts"))
    (e : List String × String) (he : e ∈ visit [root.name] c) :
    e ∈ find_missing_key_files root := by
  rw [find_missing_key_files]
  exact List.mem_flatten.2 ⟨visit [root.name] c,
    List.mem_map.2 ⟨⟨c, hc⟩, List.mem_attach _ _, rfl⟩, he⟩

/-- Membership introduction for `find_rfid_files`. -/
theorem mem_find_rfid_of (root c : FSTree)
    (hc : c ∈ root.subdirs.eraseP (fun t => t.name == "scripts"))
    (e : List String × String) (he : e ∈ visitRfid [root.name] c) :
    e ∈ find_rfid_files root := by
  rw [find_rfid_files]
  exact List.mem_flatten.2 ⟨visitRfid [root.name] c,
    List.mem_map.2 ⟨⟨c, hc⟩, List.mem_attach _ _, rfl⟩, he⟩

/-- Entries of a child's walk are entries of the parent's walk. -/
theorem mem_visit_child (path : List String) (name : String)
    (files : List String) (subdirs : List FSTree) (c : FSTree)
    (hc : c ∈ subdirs) (e : List String × String)
    (he : e ∈ visit (path ++ [name]) c) :
    e ∈ visit path (.node name files subdirs) := by
  rw [visit]
  exact List.mem_append_right _ (List.mem_flatten.2
    ⟨visit (path ++ [name]) c,
      List.mem_map.2 ⟨⟨c, hc⟩, List.mem_attach _ _, rfl⟩, he⟩)

/-- Entries of a child's walk are entries of the parent's walk
(`find_rfid_files` version). -/
theorem mem_visitRfid_child (path : List String) (name : String)
    (files : List String) (subdirs : List FSTree) (c : FSTree)
    (hc : c ∈ subdirs) (e : List String × String)
    (he : e ∈ visitRfid (path ++ [name]) c) :
    e ∈ visitRfid path (.node name files subdirs) := by
  rw [visitRfid]
  exact List.mem_append_right _ (List.mem_flatten.2
    ⟨visitRfid (path ++ [name]) c,
      List.mem_map.2 ⟨⟨c, hc⟩, List.mem_attach _ _, rfl⟩, he⟩)

/-- A tag directory that passes the artifact test contributes its own
entry. -/
theorem here_mem_visit (path : List String) (name : String)
    (files : List String) (subdirs : List FSTree)
    (h1 : "scripts" ∉ path ++ [name]) (h2 : isTagDirName name = true)
    (j : String) (h3 : selectJson files = some j) :
    (path ++ [name], j) ∈ visit path (.node name files subdirs) := by
  rw [visit]
  refine List.mem_append_left _ ?_
  rw [if_neg h1, if_pos h2, h3]
  exact List.mem_singleton.2 rfl

/-- A tag directory contributes one entry per `dump.bin`-suffixed file. -/
theorem here_mem_visitRfid (path : List String) (name : String)
    (files : List String) (subdirs : List FSTree)
    (h1 : "scripts" ∉ path ++ [name]) (h2 : isTagDirName name = true)
    (f : String) (h3 : f ∈ files.filter (fun g => pyEndswith g "dump.bin")) :
    (path ++ [name], f) ∈ visitRfid path (.node name files subdirs) := by
  rw [visitRfid]
  refine List.mem_append_left _ ?_
  rw [if_neg h1, if_pos h2]
  exact List.mem_map.2 ⟨f, h3, rfl⟩

/-- Witness for C7 on the concrete tree: the walk selects the entry under
`PLA` and the theorem shows its path avoids `scripts`. -/
theorem scripts_never_classified_witness :
    ((["..", "PLA", "AABBCC11"], "y-dump.json") ∈ find_missing_key_files c7tree ∧
      "scripts" ∉ (["..", "PLA", "AABBCC11"] : List String)) ∧
    ((["..", "PLA", "AABBCC11"], "y-dump.bin") ∈ find_rfid_files c7tree ∧
      "scripts" ∉ (["..", "PLA", "AABBCC11"] : List String)) := by
  have hc : (FSTree.node "PLA" []
      [.node "AABBCC11" ["y-dump.json", "y-dump.bin"] [],
       .node "scripts" [] [.node "AABBCC33" ["w-dump.json", "w-dump.bin"] []]]) ∈
      c7tree.subdirs.eraseP (fun t => t.name == "scripts") := by
    simp [c7tree, FSTree.subdirs, FSTree.name, List.eraseP_cons]
  have h1 : (["..", "PLA", "AABBCC11"], "y-dump.json") ∈
      find_missing_key_files c7tree := by
    refine mem_find_missing_of c7tree _ hc _ ?_
    refine mem_visit_child [".."] "PLA" []
      [.node "AABBCC11" ["y-dump.json", "y-dump.bin"] [],
       .node "scripts" [] [.node "AABBCC33" ["w-dump.json", "w-dump.bin"] []]]
      (.node "AABBCC11" ["y-dump.json", "y-dump.bin"] []) (by simp) _ ?_
    exact here_mem_visit ["..", "PLA"] "AABBCC11" _ _ (by decide) (by decide)
      "y-dump.json" rfl
  have h2 : (["..", "PLA", "AABBCC11"], "y-dump.bin") ∈
      find_rfid_files c7tree := by
    refine mem_find_rfid_of c7tree _ hc _ ?_
    refine mem_visitRfid_child [".."] "PLA" []
      [.node "AABBCC11" ["y-dump.json", "y-dump.bin"] [],
       .node "scripts" [] [.node "AABBCC33" ["w-dump.json", "w-dump.bin"] []]]
      (.node "AABBCC11" ["y-dump.json", "y-dump.bin"] []) (by simp) _ ?_
    exact here_mem_visitRfid ["..", "PLA"] "AABBCC11" _ _ (by decide) (by decide)
      "y-dump.bin" (by decide)
  exact ⟨⟨h1, scripts_never_classified.1 c7tree _ h1⟩,
    ⟨h2, scripts_never_classified.2 c7tree _ h2⟩⟩

/-- C5: a directory containing any `key.bin`-suffixed file is never
selected for synthesis; the synthesized output filename itself ends with
`key.bin`, so after a successful pass adds it to the directory's files the
directory is not selected again (directory-level idempotence: a second run
over the same tree produces no further key file there); and every entry the
traversal does emit comes from a file list the artifact test accepted
(which therefore had no `key.bin`-suffixed file). -/
theorem key_bin_idempotent :
    (∀ files : List String, (∃ f ∈ files, pyEndswith f "key.bin" = true) →
      selectJson files = none) ∧
    (∀ uid : String,
      pyEndswith ("hf-mf-" ++ uid ++ "-key.bin") "key.bin" = true) ∧
    (∀ (files : List String) (uid : String),
      selectJson (files ++ ["hf-mf-" ++ uid ++ "-key.bin"]) = none) ∧
    (∀ (path : List String) (t : FSTree) (e : List String × String),
      e ∈ visit path t → ∃ fs : List String, selectJson fs = some e.2) := by
  have p1 : ∀ files : List String,
      (∃ f ∈ files, pyEndswith f "key.bin" = true) → selectJson files = none := by
    intro files ⟨f, hf, hsuf⟩
    have hmem : f ∈ files.filter (fun g => pyEndswith g "key.bin") :=
      List.mem_filter.2 ⟨hf, hsuf⟩
    rcases hk : files.filter (fun g => pyEndswith g "key.bin") with _ | ⟨x, xs⟩
    · rw [hk] at hmem
      cases hmem
    · rcases hj : files.filter (fun g => pyEndswith g "dump.json") with _ | ⟨j, js⟩ <;>
        simp [selectJson, hk, hj]
  have p2 : ∀ uid : String,
      pyEndswith ("hf-mf-" ++ uid ++ "-key.bin") "key.bin" = true := by
    intro uid
    have h1 : ("key.bin".data : List Char) <:+ "-key.bin".data := by decide
    have h2 : ("-key.bin".data : List Char) <:+
        ("hf-mf-" ++ uid ++ "-key.bin").data := by
      rw [String.data_append]
      exact List.suffix_append _ _
    have := h1.trans h2
    simpa [pyEndswith, List.isSuffixOf_iff_suffix] using this
  refine ⟨p1, p2, ?_, ?_⟩
  · intro files uid
    exact p1 _ ⟨"hf-mf-" ++ uid ++ "-key.bin",
      List.mem_append_right _ (List.mem_singleton.2 rfl), p2 uid⟩
  · intro path t e he
    exact (visit_mem_inv (sizeOf t) t le_rfl path e he).2

/-- Witness for C5 at concrete inputs: a directory that already has a key
file is not selected; the derived output name ends in `key.bin`; after a
pass writes the output, re-selection yields nothing; and a concretely
selected entry of a walk comes from an accepted file list. -/
theorem key_bin_idempotent_witness :
    (("hf-mf-X-key.bin" ∈ ["a-dump.json", "hf-mf-X-key.bin"] ∧
        pyEndswith "hf-mf-X-key.bin" "key.bin" = true) ∧
      selectJson ["a-dump.json", "hf-mf-X-key.bin"] = none) ∧
    pyEndswith ("hf-mf-" ++ "04AABBCC" ++ "-key.bin") "key.bin" = true ∧
    selectJson (["a-dump.json"] ++ ["hf-mf-" ++ "04AABBCC" ++ "-key.bin"]) = none ∧
    ((["AABBCCDD"], "a-dump.json") ∈
        visit [] (.node "AABBCCDD" ["a-dump.json"] []) ∧
      ∃ fs : List String, selectJson fs = some "a-dump.json") := by
  have hv : (([] : List String) ++ ["AABBCCDD"], "a-dump.json") ∈
      visit [] (.node "AABBCCDD" ["a-dump.json"] []) :=
    here_mem_visit [] "AABBCCDD" ["a-dump.json"] [] (by decide) (by decide)
      "a-dump.json" rfl
  refine ⟨⟨⟨by simp, by decide⟩, ?_⟩, key_bin_idempotent.2.1 "04AABBCC",
    key_bin_idempotent.2.2.1 ["a-dump.json"] "04AABBCC", ?_, ?_⟩
  · exact key_bin_idempotent.1 _ ⟨"hf-mf-X-key.bin", by simp, by decide⟩
  · simpa using hv
  · exact key_bin_idempotent.2.2.2 []
      (.node "AABBCCDD" ["a-dump.json"] []) (["AABBCCDD"], "a-dump.json")
      (by simpa using hv)

/-- Counterexample to C8: a path with exactly three relevant segments does
not yield "unknown" for all four fields — the code's threshold is three
segments, so material category, material type and color are populated from
the path and only the UID falls back to the placeholder. -/
theorem c8_three_segments_not_all_unknown :
    extract_path_info ["PLA", "PLA Basic", "Black"] =
      ("PLA", "PLA Basic", "Black", "未知", "黑色/Black") ∧
    ("PLA" : String) ≠ "未知" := by
  exact ⟨rfl, by decide⟩

/-- C8 amended: after excluding `.` and `..` components, segment positions
0,1,2,3 map to material category, material type, color and UID; a path with
fewer than three such segments yields the "unknown" placeholder for all
four fields, and with exactly three segments only the UID (position 3) is
the placeholder. -/
theorem extract_path_info_positions (parts : List String) :
    ((parts.filter (fun p => !(p == "." || p == ".."))).length < 3 →
      extract_path_info parts = ("未知", "未知", "未知", "未知", "未知")) ∧
    (3 ≤ (parts.filter (fun p => !(p == "." || p == ".."))).length →
      (extract_path_info parts).1 =
        (parts.filter (fun p => !(p == "." || p == ".."))).getD 0 "未知" ∧
      (extract_path_info parts).2.1 =
        (parts.filter (fun p => !(p == "." || p == ".."))).getD 1 "未知" ∧
      (extract_path_info parts).2.2.1 =
        (parts.filter (fun p => !(p == "." || p == ".."))).getD 2 "未知" ∧
      (extract_path_info parts).2.2.2.1 =
        (parts.filter (fun p => !(p == "." || p == ".."))).getD 3 "未知") := by
  constructor
  · intro hlt
    rw [extract_path_info, dif_neg (by omega)]
  · intro hge
    rw [extract_path_info, dif_pos hge]
    refine ⟨?_, ?_, ?_, ?_⟩
    · rw [List.getD_eq_get _ _ (by omega)]
    · rw [List.getD_eq_get _ _ (by omega)]
    · rw [List.getD_eq_get _ _ (by omega)]
    · by_cases h4 : 3 < (parts.filter (fun p => !(p == "." || p == ".."))).length
      · rw [dif_pos h4, List.getD_eq_get _ _ h4]
      · rw [dif_neg h4, List.getD_eq_default _ _ (by omega)]

/-- Witness for the amended C8 at concrete paths: a one-segment path gives
all-unknown, a full dump-file path populates all four positions. -/
theorem extract_path_info_positions_witness :
    extract_path_info ["PLA"] = ("未知", "未知", "未知", "未知", "未知") ∧
    (extract_path_info ["..", "PLA", "PLA Basic", "Black", "12345678",
        "dump.bin"]).1 = "PLA" ∧
    (extract_path_info ["..", "PLA", "PLA Basic", "Black", "12345678",
        "dump.bin"]).2.1 = "PLA Basic" ∧
    (extract_path_info ["..", "PLA", "PLA Basic", "Black", "12345678",
        "dump.bin"]).2.2.1 = "Black" ∧
    (extract_path_info ["..", "PLA", "PLA Basic", "Black", "12345678",
        "dump.bin"]).2.2.2.1 = "12345678" := by
  have h1 := (extract_path_info_positions ["PLA"]).1 (by decide)
  have h2 := (extract_path_info_positions
    ["..", "PLA", "PLA Basic", "Black", "12345678", "dump.bin"]).2 (by decide)
  exact ⟨h1, by rw [h2.1]; decide, by rw [h2.2.1]; decide,
    by rw [h2.2.2.1]; decide, by rw [h2.2.2.2]; decide⟩

/-- The parts of the dump-file path used by the C9 counterexample. -/
def c9path : List String :=
  ["..", "PLA", "PLA Basic", "Black", "12345678", "dump.bin"]

/-- Counterexample to C9: when the parse call fails, the emitted row does
not have all five fields set to the failure placeholder — material type and
color keep their path-derived values; only UID, color code and print
temperature are the placeholder. -/
theorem c9_failure_row_keeps_path_fields :
    processFiles [(c9path, .error "parse failure")] =
      [{ material_type := "PLA Basic", color := "黑色/Black",
         uid := "解析失败", color_code := "解析失败",
         print_temp := "解析失败" }] ∧
    ("PLA Basic" : String) ≠ "解析失败" := by
  exact ⟨rfl, by decide⟩

/-- C9 amended: report aggregation emits exactly one row per file; for a
file whose external parse call fails, the row's UID, color code and print
temperature fields are the failure placeholder while material type and
color keep their path-derived values; the guarded parse call isolates the
failure, so the batch loop processes every file. -/
theorem processFiles_parse_failure
    (items : List (List String × Except String ParsedTag)) :
    (processFiles items).length = items.length ∧
    ∀ it ∈ items, ∀ e, it.2 = .error e →
      makeRow it.1 it.2 ∈ processFiles items ∧
      makeRow it.1 it.2 =
        { material_type := (extract_path_info it.1).2.1
          color := (extract_path_info it.1).2.2.2.2
          uid := "解析失败"
          color_code := "解析失败"
          print_temp := "解析失败" } := by
  constructor
  · simp [processFiles]
  · intro it hit e he
    refine ⟨List.mem_map.2 ⟨it, hit, rfl⟩, ?_⟩
    rw [makeRow, he]
    rfl

/-- Witness for the amended C9 at a concrete failing file: one row is
emitted and its fields are as amended. -/
theorem processFiles_parse_failure_witness :
    (processFiles [(c9path, .error "boom")]).length = 1 ∧
    makeRow c9path (.error "boom") =
      { material_type := "PLA Basic", color := "黑色/Black",
        uid := "解析失败", color_code := "解析失败",
        print_temp := "解析失败" } := by
  have h := processFiles_parse_failure [(c9path, .error "boom")]
  refine ⟨h.1, ?_⟩
  have h2 := (h.2 (c9path, .error "boom") (by simp) "boom" rfl).2
  rw [h2]
  decide

end BambuRFID
